import Mathlib

/-!
# Shallow embedding of the zzz-Secure core

This file embeds, in Lean 4, the core of the zzz-Secure admission-control
library:

* `MemoryLeakyBucketStore` (in-memory leaky-bucket rate-limit store),
* `PostgresTokenBucketStore` (durable token-bucket rate-limit store),
* the Redis Lua scripts of the suspicion-score engine
  (`scripts.increment`, `scripts.flushExpired`),
* the attack-signature detector `detectMaliciousRequest` and the
  `ZShield.middleware` admission gate.

Numbers are modelled with `ℚ` (JavaScript floating-point arithmetic of the
leaky bucket, exact) and `ℤ` (integer token counts and epoch-millisecond
timestamps of the Postgres backend and the Lua scripts).  Keyed maps are
association lists; `Date.now()` is an explicit `now` parameter threaded
through every operation.  Regular expressions are abstracted as `String →
Bool` predicates, which keeps the detector's structure while leaving the
literal pattern lists (excluded from the core) opaque.
-/

namespace ZZZSecure

/-! ## Association-list store primitives -/

/-- Look a key up in an association list (the `Map.get` of the sources). -/
def alookup {β : Type} (l : List (String × β)) (k : String) : Option β :=
  (l.find? (fun p => p.1 = k)).map (·.2)

/-- Replace the value at `k` if present, otherwise append the binding
(the `Map.set` / SQL-upsert of the sources). -/
def aupsert {β : Type} (l : List (String × β)) (k : String) (v : β) :
    List (String × β) :=
  match l with
  | [] => [(k, v)]
  | (k', v') :: rest =>
    if k' = k then (k', v) :: rest else (k', v') :: aupsert rest k v

/-- Delete the binding for `k` (the `Map.delete` of the sources). -/
def adelete {β : Type} (l : List (String × β)) (k : String) :
    List (String × β) :=
  l.filter (fun p => ¬ p.1 = k)

/-! ## MemoryLeakyBucketStore (src/unnamed/part_000, second document)

JavaScript numbers are modelled by `ℚ`; `Date.now()` is an explicit `now`
argument.  The `clients` map holds `Client` records mutated in place by the
source, so every operation returns the possibly-updated store. -/

namespace LeakyBucket

/-- `type Client = { remaining: number; lastUpdated: number }`. -/
structure Client where
  remaining : ℚ
  lastUpdated : ℚ
deriving Repr, DecidableEq

/-- Rate-limit info returned to the caller: `{ totalHits, resetTime }`.
`resetTime` is the epoch-millisecond value wrapped in `new Date(...)`. -/
structure Info where
  totalHits : ℚ
  resetTime : ℚ
deriving Repr, DecidableEq

/-- The whole `MemoryLeakyBucketStore` object: configuration set by `init`
plus the `clients` map. -/
structure Store where
  bucketCapacity : ℚ
  leakRate : ℚ
  clients : List (String × Client)
deriving Repr, DecidableEq

/-- `init(options)`: `bucketCapacity = options.max ?? 10`,
`leakRate = bucketCapacity / (options.windowMs ?? 60000)`. -/
def Store.init (max : Option ℚ) (windowMs : Option ℚ) : Store :=
  let cap := max.getD 10
  { bucketCapacity := cap
    leakRate := cap / windowMs.getD 60000
    clients := [] }

/-- `updateBucket(client)`: add `elapsedTime * leakRate` of leaked capacity,
cap at `bucketCapacity`, stamp `lastUpdated = now`. -/
def updateBucket (s : Store) (now : ℚ) (c : Client) : Client :=
  { remaining := min (c.remaining + (now - c.lastUpdated) * s.leakRate) s.bucketCapacity
    lastUpdated := now }

/-- `getClient(key)`: existing client, or a fresh
`{ remaining: bucketCapacity, lastUpdated: Date.now() }` inserted into the map. -/
def getClient (s : Store) (now : ℚ) (k : String) : Client × Store :=
  match ZZZSecure.alookup s.clients k with
  | some c => (c, s)
  | none =>
    let c : Client := ⟨s.bucketCapacity, now⟩
    (c, { s with clients := ZZZSecure.aupsert s.clients k c })

/-- `get(key)`: `undefined` for an unknown key; otherwise update the bucket
(in place) and report `remaining` and
`lastUpdated + bucketCapacity / leakRate`. -/
def get (s : Store) (now : ℚ) (k : String) : Option Info × Store :=
  match ZZZSecure.alookup s.clients k with
  | none => (none, s)
  | some c =>
    let c' := updateBucket s now c
    (some ⟨c'.remaining, c'.lastUpdated + s.bucketCapacity / s.leakRate⟩,
      { s with clients := ZZZSecure.aupsert s.clients k c' })

/-- `increment(key)`: fetch-or-create, leak, then consume one unit unless
`remaining <= 0`. -/
def increment (s : Store) (now : ℚ) (k : String) : Info × Store :=
  let cs := getClient s now k
  let c1 := updateBucket s now cs.1
  if c1.remaining ≤ 0 then
    (⟨0, c1.lastUpdated + s.bucketCapacity / s.leakRate⟩,
      { cs.2 with clients := ZZZSecure.aupsert cs.2.clients k c1 })
  else
    let c2 : Client := { c1 with remaining := c1.remaining - 1 }
    (⟨c2.remaining, c2.lastUpdated + s.bucketCapacity / s.leakRate⟩,
      { cs.2 with clients := ZZZSecure.aupsert cs.2.clients k c2 })

/-- `decrement(key)`: if the client exists,
`remaining = min(remaining + 1, bucketCapacity)`; `lastUpdated` untouched. -/
def decrement (s : Store) (k : String) : Store :=
  match ZZZSecure.alookup s.clients k with
  | none => s
  | some c =>
    let c' : Client := { c with remaining := min (c.remaining + 1) s.bucketCapacity }
    { s with clients := ZZZSecure.aupsert s.clients k c' }

/-- `resetKey(key)`: `this.clients.delete(key)`. -/
def resetKey (s : Store) (k : String) : Store :=
  { s with clients := ZZZSecure.adelete s.clients k }

/-- `resetAll()`: `this.clients.clear()`. -/
def resetAll (s : Store) : Store :=
  { s with clients := [] }

/-- Iterate `increment` at a fixed instant (back-to-back calls). -/
def incrementN (s : Store) (now : ℚ) (k : String) : ℕ → Store
  | 0 => s
  | n + 1 => incrementN ((increment s now k).2) now k n

end LeakyBucket

/-! ## PostgresTokenBucketStore (src/src/token-bucket/pg.ts)

The `token_buckets` table is an association list of rows; `tokens` is an
`INT` column (`ℤ`), `last_refill_time` a `BIGINT` epoch-ms timestamp (`ℤ`).
Rates and `resetTime` stay rational. -/

namespace TokenBucketPg

/-- One row of `token_buckets`: `(key PRIMARY KEY, tokens, last_refill_time)`. -/
structure Row where
  tokens : ℤ
  lastRefillTime : ℤ
deriving Repr, DecidableEq

/-- `ClientRateLimitInfo` for this backend: integer `totalHits`, and
`resetTime` as the epoch-ms value inside `new Date(...)`. -/
structure Info where
  totalHits : ℤ
  resetTime : ℚ
deriving Repr, DecidableEq

/-- The store's configuration fields, as assigned by `init(options)`:
`refillInterval = 1000 / (options.refillRate ?? 1)`,
`bucketCapacity = options.maxTokens ?? 10`,
`tokensPerInterval = options.refillRate ?? 1 / (refillInterval / 1000)`. -/
structure Config where
  refillInterval : ℚ
  bucketCapacity : ℤ
  tokensPerInterval : ℚ
deriving Repr, DecidableEq

/-- `init(options)` translated literally (the `??` fallback of
`tokensPerInterval` binds the whole division, JS precedence). -/
def Config.init (refillRate : Option ℚ) (maxTokens : Option ℤ) : Config :=
  let ri := 1000 / refillRate.getD 1
  { refillInterval := ri
    bucketCapacity := maxTokens.getD 10
    tokensPerInterval := refillRate.getD (1 / (ri / 1000)) }

/-- The database: contents of the `token_buckets` table. -/
abbrev Db : Type := List (String × Row)

/-- `increment(key)` without fault injection: the pure state transition the
transaction commits.  Absent rows read as `tokens = 0, last_refill_time =
now`; `tokensToAdd = floor(elapsed/1000 * tokensPerInterval)`; one token is
consumed when `newTokens > 0`; the returned `resetTime` is
`lastRefillTime + refillInterval` with the **pre-transaction** stored
`lastRefillTime`. -/
def increment (cfg : Config) (now : ℤ) (db : Db) (key : String) : Info × Db :=
  let read :=
    match ZZZSecure.alookup db key with
    | some row => (row.tokens, row.lastRefillTime)
    | none => (0, now)
  let currentTokens := read.1
  let lastRefillTime := read.2
  let elapsedTime := now - lastRefillTime
  let tokensToAdd := ⌊((elapsedTime : ℚ) / 1000) * cfg.tokensPerInterval⌋
  let newTokens := min (currentTokens + tokensToAdd) cfg.bucketCapacity
  let canConsume := 0 < newTokens
  let updatedTokens := if canConsume then newTokens - 1 else newTokens
  (⟨updatedTokens, (lastRefillTime : ℚ) + cfg.refillInterval⟩,
    ZZZSecure.aupsert db key ⟨updatedTokens, now⟩)

/-- `get(key)`: a plain `SELECT`; returns the stored `tokens` unchanged and
`resetTime = last_refill_time + refillInterval`.  No replenishment is
applied and the table is not written. -/
def get (cfg : Config) (db : Db) (key : String) : Option Info :=
  match ZZZSecure.alookup db key with
  | none => none
  | some row => some ⟨row.tokens, (row.lastRefillTime : ℚ) + cfg.refillInterval⟩

/-- `decrement(key)` without fault injection: if the row exists,
`tokens = min(tokens + 1, bucketCapacity)`; `last_refill_time` untouched. -/
def decrement (cfg : Config) (db : Db) (key : String) : Db :=
  match ZZZSecure.alookup db key with
  | none => db
  | some row =>
    ZZZSecure.aupsert db key ⟨min (row.tokens + 1) cfg.bucketCapacity, row.lastRefillTime⟩

/-- `resetKey(key)`: upsert `(key, bucketCapacity, now)`. -/
def resetKey (cfg : Config) (now : ℤ) (db : Db) (key : String) : Db :=
  ZZZSecure.aupsert db key ⟨cfg.bucketCapacity, now⟩

/-- `resetAll()`: `DELETE FROM token_buckets`. -/
def resetAll (_db : Db) : Db := []

/-! ### Fault-injected transactions

`increment` runs `BEGIN; SELECT ... FOR UPDATE; INSERT ... ON CONFLICT;
COMMIT` inside `try/catch/finally`: any query error triggers `ROLLBACK`,
the same error is re-thrown, and `client.release()` always runs.  We model
each query step as possibly failing with an error value (`ℕ`), writes as
buffered until `COMMIT` (transactional semantics), and return the call's
outcome, the resulting table, and whether the connection was released. -/

/-- The four fallible query steps of the `increment` transaction. -/
inductive TxStep
  | txBegin
  | txSelect
  | txUpsert
  | txCommit
deriving Repr, DecidableEq

/-- The first error raised by a fault assignment, in execution order. -/
def firstFault (fault : TxStep → Option ℕ) : Option ℕ :=
  (fault TxStep.txBegin).orElse fun _ =>
    (fault TxStep.txSelect).orElse fun _ =>
      (fault TxStep.txUpsert).orElse fun _ => fault TxStep.txCommit

/-- `increment(key)` with fault injection: result (or re-raised error),
table contents after commit/rollback, and the released flag set by
`finally`. -/
def incrementTx (cfg : Config) (now : ℤ) (db : Db) (key : String)
    (fault : TxStep → Option ℕ) : Except ℕ Info × Db × Bool :=
  match fault TxStep.txBegin with
  | some e => (Except.error e, db, true)
  | none =>
    match fault TxStep.txSelect with
    | some e => (Except.error e, db, true)
    | none =>
      match fault TxStep.txUpsert with
      | some e => (Except.error e, db, true)
      | none =>
        match fault TxStep.txCommit with
        | some e => (Except.error e, db, true)
        | none =>
          let r := increment cfg now db key
          (Except.ok r.1, r.2, true)

/-- The first error raised during the `decrement` transaction: its `UPDATE`
only runs (and so can only fail) when the selected row exists. -/
def firstFaultDecrement (db : Db) (key : String) (fault : TxStep → Option ℕ) :
    Option ℕ :=
  (fault TxStep.txBegin).orElse fun _ =>
    (fault TxStep.txSelect).orElse fun _ =>
      (match ZZZSecure.alookup db key with
        | some _ => fault TxStep.txUpsert
        | none => none).orElse fun _ => fault TxStep.txCommit

/-- The three fallible query steps of the `decrement` transaction
(`BEGIN; SELECT ... FOR UPDATE; UPDATE; COMMIT`, the `UPDATE` only when the
row exists — a fault on it can only fire then). -/
def decrementTx (cfg : Config) (db : Db) (key : String)
    (fault : TxStep → Option ℕ) : Except ℕ Unit × Db × Bool :=
  match fault TxStep.txBegin with
  | some e => (Except.error e, db, true)
  | none =>
    match fault TxStep.txSelect with
    | some e => (Except.error e, db, true)
    | none =>
      match ZZZSecure.alookup db key, fault TxStep.txUpsert with
      | some _, some e => (Except.error e, db, true)
      | _, _ =>
        match fault TxStep.txCommit with
        | some e => (Except.error e, db, true)
        | none => (Except.ok (), decrement cfg db key, true)

end TokenBucketPg

/-! ## Suspicion-score engine (src/unnamed/part_000, Lua `scripts`)

A record is the Redis hash `{score, expiry, isBlocked}`; the store is the
whole keyspace.  `now` is Redis `TIME` in epoch milliseconds.  Records are
only ever created by `scripts.increment`, which always sets all three
fields, so a present record always carries an `expiry`. -/

namespace Suspicion

/-- The Redis hash for one key: `score`, `expiry`, `isBlocked`. -/
structure SuspicionRecord where
  score : ℤ
  expiry : ℤ
  isBlocked : Bool
deriving Repr, DecidableEq

/-- The Redis keyspace. -/
abbrev SuspStore : Type := List (String × SuspicionRecord)

/-- `scripts.increment` as a transition on one key's record: on a missing
or expired record (`expiry <= now`) reset to `score = 1, expiry = now + ttl,
isBlocked = false` and return 1; otherwise bump the score and either block
(`score >= threshold`: `expiry = now + blockDurationMs, isBlocked = true`)
or renew (`expiry = now + ttl`, `isBlocked` untouched by the `HMSET`),
returning the new score. -/
def luaIncrement (threshold blockDurationMs ttl now : ℤ)
    (rec : Option SuspicionRecord) : SuspicionRecord × ℤ :=
  match rec with
  | none => (⟨1, now + ttl, false⟩, 1)
  | some r =>
    if r.expiry ≤ now then
      (⟨1, now + ttl, false⟩, 1)
    else
      let v := r.score + 1
      if threshold ≤ v then
        (⟨v, now + blockDurationMs, true⟩, v)
      else
        (⟨v, now + ttl, r.isBlocked⟩, v)

/-- The §4.4 transition exactly as the specification words it:
`if record absent OR now ≥ expiry: score = 1; expiry = now + ttl;
isBlocked = false` else `score += 1`, then block-or-renew; returns the
resulting score.  Written from the spec, to be compared with
`luaIncrement`. -/
def specTransition (threshold blockDurationMs ttl now : ℤ)
    (rec : Option SuspicionRecord) : SuspicionRecord × ℤ :=
  match rec with
  | none => (⟨1, now + ttl, false⟩, 1)
  | some r =>
    if now ≥ r.expiry then
      (⟨1, now + ttl, false⟩, 1)
    else
      let score := r.score + 1
      if score ≥ threshold then
        (⟨score, now + blockDurationMs, true⟩, score)
      else
        (⟨score, now + ttl, r.isBlocked⟩, score)

/-- `scripts.increment` applied at a key of the keyspace. -/
def applyIncrement (threshold blockDurationMs ttl now : ℤ)
    (st : SuspStore) (k : String) : SuspStore × ℤ :=
  let r := luaIncrement threshold blockDurationMs ttl now (ZZZSecure.alookup st k)
  (ZZZSecure.aupsert st k r.1, r.2)

/-- `scripts.flushExpired`: iterate over every key, `DEL` those whose
`expiry <= now`, count the deletions, return the survivors and the count. -/
def flushExpired (now : ℤ) : SuspStore → SuspStore × ℕ
  | [] => ([], 0)
  | (k, r) :: rest =>
    let tail := flushExpired now rest
    if r.expiry ≤ now then (tail.1, tail.2 + 1)
    else ((k, r) :: tail.1, tail.2)

/-- One operation of the engine: a scripted increment on some key, or a
sweep; each carries its own backend-native `now` and per-call durations. -/
inductive SuspOp
  | inc (k : String) (blockDurationMs ttl now : ℤ)
  | flush (now : ℤ)

/-- Run a sequence of engine operations (fixed suspicion threshold). -/
def run (threshold : ℤ) (st : SuspStore) : List SuspOp → SuspStore
  | [] => st
  | SuspOp.inc k b t n :: ops => run threshold (applyIncrement threshold b t n st k).1 ops
  | SuspOp.flush n :: ops => run threshold (flushExpired n st).1 ops

/-- The §3 record invariant: non-negative score, and the blocked flag only
at or above the threshold. -/
def Inv (threshold : ℤ) (st : SuspStore) : Prop :=
  ∀ p ∈ st, 0 ≤ p.2.score ∧ (p.2.isBlocked = true → threshold ≤ p.2.score)

end Suspicion

/-! ## Attack-signature detector and admission gate (src/src/shield/lib.ts)

The merged `{...req.query, ...req.body, ...req.params}` view is a list of
field values, each a string (`some s`) or a non-string (`none`).  A regular
expression's `.test` is an opaque `String → Bool` predicate; the concrete
pattern lists live outside the core and are parameters here.  The suspicion
store behind `ZShield` is behind the `StoreInterface` and is likewise a
parameter: a state type with `isBlocked` and `increment`. -/

namespace Shield

/-- A compiled pattern: the observable behaviour of `RegExp.test`. -/
abbrev Pattern : Type := String → Bool

/-- The merged request view: string field values and non-string ones. -/
abbrev Request : Type := List (Option String)

/-- The option flags of `ShieldOptions` the detector and gate consult. -/
structure ShieldOptions where
  suspicionThreshold : ℤ
  csrf : Bool
  xss : Bool
  sqlInjection : Bool
  lfi : Bool
  rfi : Bool
  shellInjection : Bool
deriving Repr, DecidableEq

/-- `isAttackDetected(input, patterns)`: some string-valued field matches
some pattern. -/
def isAttackDetected (input : Request) (patterns : List Pattern) : Bool :=
  input.any fun v =>
    match v with
    | some s => patterns.any fun p => p s
    | none => false

/-- `detectMaliciousRequest(req, options)`: collect `"XSS"`,
`"SQL Injection"`, `"LFI"` for each enabled-and-matching category, in that
order; suspicious iff the list is non-empty. -/
def detectMaliciousRequest (req : Request) (opts : ShieldOptions)
    (xssPatterns sqlPatterns lfiPatterns : List Pattern) :
    Bool × List String :=
  let attackTypes :=
    (if opts.xss && isAttackDetected req xssPatterns then ["XSS"] else []) ++
    (if opts.sqlInjection && isAttackDetected req sqlPatterns then ["SQL Injection"] else []) ++
    (if opts.lfi && isAttackDetected req lfiPatterns then ["LFI"] else [])
  (decide (0 < attackTypes.length), attackTypes)

/-- The `StoreInterface` behind `ZShield`: a state type with the two
operations the middleware calls (`blockDurationMs` is fixed at
construction and baked in). -/
structure GateStore (σ : Type) where
  isBlocked : σ → String → Bool
  increment : σ → String → ℤ × σ

/-- A middleware outcome: a 403 denial (with the detected attack list on
the score path) or `next()`. -/
inductive Decision
  | denied (detectedAttacks : Option (List String))
  | allowed
deriving Repr, DecidableEq

/-- `ZShield.middleware`: deny on a missing client key; deny if already
blocked (no detection, no increment); pass through on a clean request; on
a match, increment once and deny exactly when the returned score reaches
the threshold, attaching the matched categories. -/
def middleware {σ : Type} (store : GateStore σ) (opts : ShieldOptions)
    (xssPatterns sqlPatterns lfiPatterns : List Pattern)
    (clientIP : Option String) (req : Request) (s : σ) : Decision × σ :=
  match clientIP with
  | none => (Decision.denied none, s)
  | some ip =>
    if store.isBlocked s ip then (Decision.denied none, s)
    else
      let d := detectMaliciousRequest req opts xssPatterns sqlPatterns lfiPatterns
      if d.1 then
        let r := store.increment s ip
        if opts.suspicionThreshold ≤ r.1 then (Decision.denied (some d.2), r.2)
        else (Decision.allowed, r.2)
      else (Decision.allowed, s)

end Shield

/-! ## Shared lemmas about the store primitives -/

theorem alookup_aupsert {β : Type} (l : List (String × β)) (k : String) (v : β) :
    alookup (aupsert l k v) k = some v := by
  induction l with
  | nil => simp [alookup, aupsert, List.find?]
  | cons hd tl ih =>
    by_cases h : hd.1 = k
    · cases hd with
      | mk k' v' =>
        simp only at h
        simp [aupsert, h, alookup, List.find?]
    · cases hd with
      | mk k' v' =>
        simp only at h
        simp only [aupsert, if_neg h, alookup, List.find?]
        simp only [alookup] at ih
        simp [h, ih]

theorem alookup_adelete {β : Type} (l : List (String × β)) (k : String) :
    alookup (adelete l k) k = none := by
  induction l with
  | nil => simp [alookup, adelete]
  | cons hd tl ih =>
    simp only [adelete, List.filter_cons] at ih ⊢
    by_cases h : hd.1 = k
    · simpa [h] using ih
    · rw [if_pos (by simpa using h)]
      simp only [alookup, List.find?] at ih ⊢
      simp [h, ih]

theorem mem_aupsert {β : Type} {l : List (String × β)} {k : String} {v : β}
    {p : String × β} (hp : p ∈ aupsert l k v) : p ∈ l ∨ p = (k, v) := by
  induction l with
  | nil => simpa [aupsert] using hp
  | cons hd tl ih =>
    by_cases h : hd.1 = k
    · cases hd with
      | mk k' v' =>
        simp only at h
        simp only [aupsert, if_pos h] at hp
        rcases List.mem_cons.mp hp with h1 | h1
        · right; rw [h1, h]
        · left; exact List.mem_cons_of_mem _ h1
    · cases hd with
      | mk k' v' =>
        simp only at h
        simp only [aupsert, if_neg h] at hp
        rcases List.mem_cons.mp hp with h1 | h1
        · left; exact h1 ▸ List.mem_cons_self _ _
        · rcases ih h1 with h2 | h2
          · left; exact List.mem_cons_of_mem _ h2
          · right; exact h2

/-- What the sweep computes: survivors are exactly the records with
`expiry > now`, kept verbatim, and the count is the number of expired
records. -/
theorem flushExpired_spec (now : ℤ) (st : Suspicion.SuspStore) :
    Suspicion.flushExpired now st =
      (st.filter (fun p => decide (now < p.2.expiry)),
        (st.filter (fun p => decide (p.2.expiry ≤ now))).length) := by
  induction st with
  | nil => rfl
  | cons hd tl ih =>
    cases hd with
    | mk k r =>
      by_cases h : r.expiry ≤ now
      · simp [Suspicion.flushExpired, h, ih, List.filter_cons, not_lt.mpr h]
      · simp [Suspicion.flushExpired, h, ih, List.filter_cons, lt_of_not_le h]

/-! ## Claim theorems -/

/-- C1: the spec's bound `0 ≤ remaining ≤ capacity` fails on the leaky
bucket exactly where the claim points: from a fresh
`MemoryLeakyBucketStore` (`max = 1`, `windowMs = 1000`), an
`increment("k")` at `t = 0` drains the bucket to `0`; a second
`increment("k")` at `t = 500` first leaks back `500 · 1/1000 = 1/2` of
capacity, passes the `remaining <= 0` guard, and then subtracts a whole
unit, persisting `remaining = -1/2 < 0`. -/
theorem C1_leaky_bucket_negative_remaining :
    ZZZSecure.alookup
        ((LeakyBucket.increment
            ((LeakyBucket.increment (LeakyBucket.Store.init (some 1) (some 1000)) 0 "k").2)
            500 "k").2.clients) "k" =
      some ⟨-1/2, 500⟩ ∧ ¬ (0 : ℚ) ≤ -1/2 := by
  constructor
  · simp only [LeakyBucket.increment, LeakyBucket.Store.init, LeakyBucket.getClient,
      LeakyBucket.updateBucket, ZZZSecure.alookup, ZZZSecure.aupsert, List.find?]
    norm_num [min_def]
    simp [ZZZSecure.aupsert, List.find?]
  · norm_num

/-- C2 counterexample: the token-bucket half of the claim is false.  With
`capacity = 10`, `refillRate = 1` token/sec, a stored row
`(tokens = 0, last_refill_time = t0 = 0)`, a `get` (at any time, in
particular `t0 + 5000`) reports `totalHits = 0`, not `5`:
`PostgresTokenBucketStore.get` is a plain `SELECT` and applies no
replenishment at all (it does not even read the clock). -/
theorem C2_counterexample :
    TokenBucketPg.get (TokenBucketPg.Config.init (some 1) (some 10))
        [("k", ⟨0, 0⟩)] "k" = some ⟨0, 1000⟩ ∧ (0 : ℤ) ≠ 5 := by
  constructor
  · simp only [TokenBucketPg.get, TokenBucketPg.Config.init, ZZZSecure.alookup, List.find?]
    norm_num
  · decide

/-- C2 amended: in the claim's scenario the leaky-bucket `get` does apply
the pending replenishment — reporting `remaining = 5` and persisting
exactly the replenished (not consumed) value — while the token-bucket
`get` returns the stored `tokens = 0` unchanged, applying no
replenishment. -/
theorem C2_get_replenishment :
    (LeakyBucket.get
        ({ LeakyBucket.Store.init (some 10) (some 10000) with
            clients := [("k", ⟨0, 0⟩)] }) 5000 "k").1 = some ⟨5, 15000⟩ ∧
    ZZZSecure.alookup
        ((LeakyBucket.get
            ({ LeakyBucket.Store.init (some 10) (some 10000) with
                clients := [("k", ⟨0, 0⟩)] }) 5000 "k").2.clients) "k" =
      some ⟨5, 5000⟩ ∧
    TokenBucketPg.get (TokenBucketPg.Config.init (some 1) (some 10))
        [("k", ⟨0, 0⟩)] "k" = some ⟨0, 1000⟩ := by
  refine ⟨?_, ?_, ?_⟩
  · simp only [LeakyBucket.get, LeakyBucket.Store.init, LeakyBucket.updateBucket,
      ZZZSecure.alookup, List.find?]
    norm_num [min_def]
  · simp only [LeakyBucket.get, LeakyBucket.Store.init, LeakyBucket.updateBucket,
      ZZZSecure.alookup, ZZZSecure.aupsert, List.find?]
    norm_num [min_def]
  · simp only [TokenBucketPg.get, TokenBucketPg.Config.init, ZZZSecure.alookup, List.find?]
    norm_num

/-- C4 counterexample: in the leaky-bucket backend, `resetKey` *deletes*
the record, so a `get` immediately afterwards returns `undefined` — it
does not report `remaining = capacity = 10`.  Concretely: create the
record with one `increment` at `t = 0`, `resetKey`, then `get`. -/
theorem C4_counterexample :
    ¬ (((LeakyBucket.get
          (LeakyBucket.resetKey
            ((LeakyBucket.increment (LeakyBucket.Store.init (some 10) (some 10000)) 0 "k").2)
            "k") 0 "k").1.map LeakyBucket.Info.totalHits) = some 10) := by
  simp only [LeakyBucket.get, LeakyBucket.resetKey, alookup_adelete]
  simp

/-- C5 counterexample: in the token-bucket backend, with `capacity = 10`,
`refillRate = 1` token/sec, a stored row `(tokens = 0,
last_refill_time = 0)` and an `increment` at `now = 5000`: the returned
`resetTime` is the *pre-transaction* `last_refill_time + refillInterval =
0 + 1000 = 1000`, while the record's post-operation `lastUpdated` is
`5000` and `capacity/rate = 10000 ms`, so the claim's value would be
`15000 ≠ 1000`. -/
theorem C5_counterexample :
    (TokenBucketPg.increment (TokenBucketPg.Config.init (some 1) (some 10)) 5000
        [("k", ⟨0, 0⟩)] "k").1.resetTime = 1000 ∧
    ZZZSecure.alookup
        ((TokenBucketPg.increment (TokenBucketPg.Config.init (some 1) (some 10)) 5000
            [("k", ⟨0, 0⟩)] "k").2) "k" = some ⟨4, 5000⟩ ∧
    (1000 : ℚ) ≠ 5000 + 10000 := by
  refine ⟨?_, ?_, by norm_num⟩
  · simp only [TokenBucketPg.increment, TokenBucketPg.Config.init,
      ZZZSecure.alookup, List.find?]
    norm_num
  · simp only [TokenBucketPg.increment, TokenBucketPg.Config.init,
      ZZZSecure.alookup, ZZZSecure.aupsert, List.find?]
    norm_num

/-- C5 amended: the leaky-bucket backend does return
`resetTime = post-operation lastUpdated + capacity/rate` (its `increment`
always stamps `lastUpdated = now`); the token-bucket backend instead
returns `resetTime = pre-operation stored last_refill_time +
refillInterval`, where `refillInterval = 1000/refillRate`, not
`capacity/rate`. -/
theorem C5_reset_time :
    (∀ (s : LeakyBucket.Store) (now : ℚ) (k : String),
        (LeakyBucket.increment s now k).1.resetTime =
          now + s.bucketCapacity / s.leakRate ∧
        (ZZZSecure.alookup (LeakyBucket.increment s now k).2.clients k).map
            LeakyBucket.Client.lastUpdated = some now) ∧
    (∀ (s : LeakyBucket.Store) (now : ℚ) (k : String) (c : LeakyBucket.Client),
        ZZZSecure.alookup s.clients k = some c →
        ((LeakyBucket.get s now k).1.map LeakyBucket.Info.resetTime) =
          some (now + s.bucketCapacity / s.leakRate)) ∧
    (∀ (cfg : TokenBucketPg.Config) (now : ℤ) (db : TokenBucketPg.Db) (key : String)
        (row : TokenBucketPg.Row), ZZZSecure.alookup db key = some row →
        (TokenBucketPg.increment cfg now db key).1.resetTime =
          (row.lastRefillTime : ℚ) + cfg.refillInterval) ∧
    (∀ (cfg : TokenBucketPg.Config) (db : TokenBucketPg.Db) (key : String)
        (row : TokenBucketPg.Row), ZZZSecure.alookup db key = some row →
        (TokenBucketPg.get cfg db key).map TokenBucketPg.Info.resetTime =
          some ((row.lastRefillTime : ℚ) + cfg.refillInterval)) := by
  refine ⟨?_, ?_, ?_, ?_⟩
  · intro s now k
    simp only [LeakyBucket.increment, LeakyBucket.getClient, LeakyBucket.updateBucket]
    cases h : ZZZSecure.alookup s.clients k with
    | none =>
      by_cases hb : s.bucketCapacity ≤ 0 <;> simp [h, hb, alookup_aupsert]
    | some c =>
      by_cases hr : min (c.remaining + (now - c.lastUpdated) * s.leakRate) s.bucketCapacity ≤ 0 <;>
        simp [h, hr, alookup_aupsert]
  · intro s now k c h
    simp [LeakyBucket.get, h, LeakyBucket.updateBucket]
  · intro cfg now db key row h
    simp [TokenBucketPg.increment, h]
  · intro cfg db key row h
    simp [TokenBucketPg.get, h]

/-- C5 witness: the amended claim evaluated concretely — a leaky-bucket
`get` on `capacity = 10`, `leakRate = 1/1000` at `now = 5000` returns
`resetTime = 5000 + 10/(1/1000) = 15000`, and the token-bucket `increment`
of the counterexample returns `resetTime = 0 + 1000`. -/
theorem C5_reset_time_witness :
    ((LeakyBucket.get ⟨10, 1/1000, [("k", ⟨0, 0⟩)]⟩ 5000 "k").1.map
        LeakyBucket.Info.resetTime) = some (5000 + 10 / (1/1000) : ℚ) ∧
    (TokenBucketPg.increment (TokenBucketPg.Config.init (some 1) (some 10)) 5000
        [("k", ⟨0, 0⟩)] "k").1.resetTime =
      ((0 : ℤ) : ℚ) + (TokenBucketPg.Config.init (some 1) (some 10)).refillInterval := by
  constructor
  · exact C5_reset_time.2.1 ⟨10, 1/1000, [("k", ⟨0, 0⟩)]⟩ 5000 "k" ⟨0, 0⟩
      (by simp [ZZZSecure.alookup, List.find?])
  · exact C5_reset_time.2.2.1 (TokenBucketPg.Config.init (some 1) (some 10)) 5000
      [("k", ⟨0, 0⟩)] "k" ⟨0, 0⟩ (by simp [ZZZSecure.alookup, List.find?])

/-- C3: the Lua `scripts.increment` implements exactly the §4.4 transition:
reset to `score = 1, expiry = now + ttl, isBlocked = false` (returning 1,
whatever the prior score) when the record is absent or `expiry ≤ now`;
otherwise bump the score, block with `expiry = now + blockDurationMs` when
it reaches the threshold, else renew `expiry = now + ttl`; always return
the resulting score. -/
theorem C3_lua_increment_matches_spec (threshold blockDurationMs ttl now : ℤ)
    (rec : Option Suspicion.SuspicionRecord) :
    Suspicion.luaIncrement threshold blockDurationMs ttl now rec =
      Suspicion.specTransition threshold blockDurationMs ttl now rec := by
  cases rec with
  | none => rfl
  | some r =>
    by_cases h : r.expiry ≤ now <;>
      simp [Suspicion.luaIncrement, Suspicion.specTransition, h, ge_iff_le]

/-- C6: `scripts.flushExpired` keeps exactly (and verbatim) the records
with `expiry > now`, deletes exactly those with `expiry ≤ now`, and
returns their number. -/
theorem C6_flush_expired_exact (now : ℤ) (st : Suspicion.SuspStore) :
    (Suspicion.flushExpired now st).1 =
      st.filter (fun p => decide (now < p.2.expiry)) ∧
    (Suspicion.flushExpired now st).2 =
      (st.filter (fun p => decide (p.2.expiry ≤ now))).length := by
  rw [flushExpired_spec]
  exact ⟨rfl, rfl⟩

/-- C4 amended: `resetKey` followed by `get` reports
`remaining = capacity` (with `lastUpdated = now`) in the token-bucket
backend, which upserts a full row; in the leaky-bucket backend `resetKey`
deletes the record, so the immediate `get` returns absent. -/
theorem C4_reset_then_get :
    (∀ (cfg : TokenBucketPg.Config) (now : ℤ) (db : TokenBucketPg.Db) (k : String),
        TokenBucketPg.get cfg (TokenBucketPg.resetKey cfg now db k) k =
          some ⟨cfg.bucketCapacity, (now : ℚ) + cfg.refillInterval⟩) ∧
    (∀ (s : LeakyBucket.Store) (k : String) (now : ℚ),
        (LeakyBucket.get (LeakyBucket.resetKey s k) now k).1 = none) := by
  constructor
  · intro cfg now db k
    simp [TokenBucketPg.get, TokenBucketPg.resetKey, alookup_aupsert]
  · intro s k now
    simp [LeakyBucket.get, LeakyBucket.resetKey, alookup_adelete]

/-! ## Suspicion-engine invariant (C9) -/

theorem alookup_mem {β : Type} {l : List (String × β)} {k : String} {v : β}
    (h : alookup l k = some v) : (k, v) ∈ l := by
  induction l with
  | nil => simp [alookup] at h
  | cons hd tl ih =>
    simp only [alookup, List.find?] at h ih
    rcases hd with ⟨k', v'⟩
    by_cases hk : k' = k
    · subst hk
      simp at h
      cases h
      exact List.mem_cons_self _ _
    · simp [hk] at h
      obtain ⟨a, ha⟩ := h
      exact List.mem_cons_of_mem _ (ih (by rw [ha]; rfl))

/-- The transition of `scripts.increment` preserves the per-record
invariant. -/
theorem inv_luaIncrement (threshold b t n : ℤ) (rec : Option Suspicion.SuspicionRecord)
    (h : ∀ r, rec = some r → 0 ≤ r.score ∧ (r.isBlocked = true → threshold ≤ r.score)) :
    0 ≤ (Suspicion.luaIncrement threshold b t n rec).1.score ∧
      ((Suspicion.luaIncrement threshold b t n rec).1.isBlocked = true →
        threshold ≤ (Suspicion.luaIncrement threshold b t n rec).1.score) := by
  cases rec with
  | none => simp [Suspicion.luaIncrement]
  | some r =>
    obtain ⟨hs, hb⟩ := h r rfl
    by_cases he : r.expiry ≤ n
    · simp [Suspicion.luaIncrement, he]
    · by_cases ht : threshold ≤ r.score + 1
      · refine ⟨?_, ?_⟩
        · simp only [Suspicion.luaIncrement, if_neg he, if_pos ht]
          omega
        · intro _
          simp only [Suspicion.luaIncrement, if_neg he, if_pos ht]
          exact ht
      · refine ⟨?_, ?_⟩
        · simp only [Suspicion.luaIncrement, if_neg he, if_neg ht]
          omega
        · intro hbl
          simp only [Suspicion.luaIncrement, if_neg he, if_neg ht] at hbl ⊢
          exact le_trans (hb hbl) (by omega)

/-- Any run of scripted increments and sweeps preserves the invariant. -/
theorem inv_run (threshold : ℤ) (ops : List Suspicion.SuspOp) :
    ∀ st : Suspicion.SuspStore, Suspicion.Inv threshold st →
      Suspicion.Inv threshold (Suspicion.run threshold st ops) := by
  induction ops with
  | nil => intro st h; exact h
  | cons op rest ih =>
    intro st h
    cases op with
    | inc k b t n =>
      refine ih _ ?_
      intro p hp
      rcases mem_aupsert hp with hmem | rfl
      · exact h p hmem
      · refine inv_luaIncrement threshold b t n (alookup st k) ?_
        intro r hr
        exact h (k, r) (alookup_mem hr)
    | flush n =>
      refine ih _ ?_
      intro p hp
      rw [flushExpired_spec] at hp
      exact h p (List.mem_of_mem_filter hp)

/-- C9: every suspicion record reachable from the empty keyspace by any
sequence of `scripts.increment` (fixed threshold, arbitrary per-call
times, TTLs and block durations) and `scripts.flushExpired` operations
has `score ≥ 0`, and `isBlocked = true` only with `score ≥ threshold`;
the reset path always writes `isBlocked = false`. -/
theorem C9_suspicion_invariant (threshold : ℤ) (ops : List Suspicion.SuspOp) :
    Suspicion.Inv threshold (Suspicion.run threshold [] ops) :=
  inv_run threshold ops [] (by intro p hp; cases hp)

/-- C7: in the durable backend, if any query step of `increment`'s or
`decrement`'s transaction fails, the very same error is re-raised to the
caller (an error comes back iff some step failed, and it is the first
failing step's error — never converted into a success), the table is left
exactly as before the call (rollback), and the connection is released
(`finally`) in every case. -/
theorem C7_transaction_rollback (cfg : TokenBucketPg.Config) (now : ℤ)
    (db : TokenBucketPg.Db) (key : String)
    (fault : TokenBucketPg.TxStep → Option ℕ) :
    ((TokenBucketPg.incrementTx cfg now db key fault).2.2 = true ∧
      (∀ e, (TokenBucketPg.incrementTx cfg now db key fault).1 = Except.error e ↔
        TokenBucketPg.firstFault fault = some e) ∧
      (∀ e, (TokenBucketPg.incrementTx cfg now db key fault).1 = Except.error e →
        (TokenBucketPg.incrementTx cfg now db key fault).2.1 = db)) ∧
    ((TokenBucketPg.decrementTx cfg db key fault).2.2 = true ∧
      (∀ e, (TokenBucketPg.decrementTx cfg db key fault).1 = Except.error e ↔
        TokenBucketPg.firstFaultDecrement db key fault = some e) ∧
      (∀ e, (TokenBucketPg.decrementTx cfg db key fault).1 = Except.error e →
        (TokenBucketPg.decrementTx cfg db key fault).2.1 = db)) := by
  constructor
  · cases hb : fault TokenBucketPg.TxStep.txBegin <;>
      cases hs : fault TokenBucketPg.TxStep.txSelect <;>
        cases hu : fault TokenBucketPg.TxStep.txUpsert <;>
          cases hc : fault TokenBucketPg.TxStep.txCommit <;>
            simp [TokenBucketPg.incrementTx, TokenBucketPg.firstFault,
              hb, hs, hu, hc, Option.orElse]
  · cases hb : fault TokenBucketPg.TxStep.txBegin <;>
      cases hs : fault TokenBucketPg.TxStep.txSelect <;>
        cases hrow : ZZZSecure.alookup db key <;>
          cases hu : fault TokenBucketPg.TxStep.txUpsert <;>
            cases hc : fault TokenBucketPg.TxStep.txCommit <;>
              simp [TokenBucketPg.decrementTx, TokenBucketPg.firstFaultDecrement,
                hb, hs, hrow, hu, hc, Option.orElse]

/-- C7 witness: with a fault injected at the `SELECT` step (error code 7)
on a one-row table, `increment` re-raises error 7, leaves the row as it
was, and releases the connection. -/
theorem C7_transaction_rollback_witness :
    (TokenBucketPg.incrementTx (TokenBucketPg.Config.init (some 1) (some 10)) 0
        [("k", ⟨3, 0⟩)] "k"
        (fun s => if s = TokenBucketPg.TxStep.txSelect then some 7 else none)).2.1 =
      [("k", ⟨3, 0⟩)] ∧
    (TokenBucketPg.incrementTx (TokenBucketPg.Config.init (some 1) (some 10)) 0
        [("k", ⟨3, 0⟩)] "k"
        (fun s => if s = TokenBucketPg.TxStep.txSelect then some 7 else none)).1 =
      Except.error 7 := by
  constructor
  · exact (C7_transaction_rollback (TokenBucketPg.Config.init (some 1) (some 10)) 0
      [("k", ⟨3, 0⟩)] "k"
      (fun s => if s = TokenBucketPg.TxStep.txSelect then some 7 else none)).1.2.2 7 rfl
  · exact ((C7_transaction_rollback (TokenBucketPg.Config.init (some 1) (some 10)) 0
      [("k", ⟨3, 0⟩)] "k"
      (fun s => if s = TokenBucketPg.TxStep.txSelect then some 7 else none)).1.2.1 7).mpr rfl

/-- C8: the gate's evaluation order, with early exit.  No resolvable key:
immediate denial, untouched store.  Blocked key: denial with the store
untouched (no increment) and a result independent of the request, so the
detector outcome is irrelevant.  No detector match: pass-through with the
store untouched.  A match: exactly one store increment, and denial — with
the matched category names attached — iff the resulting score reaches the
threshold. -/
theorem C8_gate_order {σ : Type} (store : Shield.GateStore σ)
    (opts : Shield.ShieldOptions) (xp sp lp : List Shield.Pattern)
    (req : Shield.Request) (s : σ) :
    (Shield.middleware store opts xp sp lp none req s =
      (Shield.Decision.denied none, s)) ∧
    (∀ ip, store.isBlocked s ip = true →
      Shield.middleware store opts xp sp lp (some ip) req s =
        (Shield.Decision.denied none, s)) ∧
    (∀ ip, store.isBlocked s ip = false →
      (Shield.detectMaliciousRequest req opts xp sp lp).1 = false →
      Shield.middleware store opts xp sp lp (some ip) req s =
        (Shield.Decision.allowed, s)) ∧
    (∀ ip, store.isBlocked s ip = false →
      (Shield.detectMaliciousRequest req opts xp sp lp).1 = true →
      Shield.middleware store opts xp sp lp (some ip) req s =
        (if opts.suspicionThreshold ≤ (store.increment s ip).1
          then Shield.Decision.denied
            (some (Shield.detectMaliciousRequest req opts xp sp lp).2)
          else Shield.Decision.allowed,
          (store.increment s ip).2)) := by
  refine ⟨rfl, ?_, ?_, ?_⟩
  · intro ip hbl
    simp [Shield.middleware, hbl]
  · intro ip hbl hdet
    simp [Shield.middleware, hbl, hdet]
  · intro ip hbl hdet
    by_cases ht : opts.suspicionThreshold ≤ (store.increment s ip).1 <;>
      simp [Shield.middleware, hbl, hdet, ht]

/-- C8 witness: over a concrete integer store (score counter; blocked iff
negative), a blocked client is denied with no increment, and a suspicious
request from an unblocked client is incremented once and denied with the
matched category. -/
theorem C8_gate_order_witness :
    Shield.middleware (⟨fun s _ => decide (s < 0), fun s _ => (s + 1, s + 1)⟩ :
        Shield.GateStore ℤ)
      ⟨1, true, true, true, true, true, true⟩
      [fun s => decide (s = "x")] [] [] (some "ip") [some "x"] (-1) =
      (Shield.Decision.denied none, -1) ∧
    Shield.middleware (⟨fun s _ => decide (s < 0), fun s _ => (s + 1, s + 1)⟩ :
        Shield.GateStore ℤ)
      ⟨1, true, true, true, true, true, true⟩
      [fun s => decide (s = "x")] [] [] (some "ip") [some "x"] 0 =
      (if (1 : ℤ) ≤ 0 + 1 then Shield.Decision.denied (some ["XSS"])
        else Shield.Decision.allowed, 0 + 1) := by
  constructor
  · exact (C8_gate_order (⟨fun s _ => decide (s < 0), fun s _ => (s + 1, s + 1)⟩ :
        Shield.GateStore ℤ) ⟨1, true, true, true, true, true, true⟩
        [fun s => decide (s = "x")] [] [] [some "x"] (-1)).2.1 "ip" rfl
  · exact (C8_gate_order (⟨fun s _ => decide (s < 0), fun s _ => (s + 1, s + 1)⟩ :
        Shield.GateStore ℤ) ⟨1, true, true, true, true, true, true⟩
        [fun s => decide (s = "x")] [] [] [some "x"] 0).2.2.2 "ip" rfl
      (by simp [Shield.detectMaliciousRequest, Shield.isAttackDetected])

/-- C10: the detector's result is a function of the `xss`, `sqlInjection`
and `lfi` flags only — options differing only in `csrf`, `rfi` and
`shellInjection` yield identical results — and every reported attack type
is one of `XSS`, `SQL Injection`, `LFI`. -/
theorem C10_detector_depends_only_on_enabled_flags
    (req : Shield.Request) (opts opts' : Shield.ShieldOptions)
    (xp sp lp : List Shield.Pattern) :
    (opts.xss = opts'.xss → opts.sqlInjection = opts'.sqlInjection →
      opts.lfi = opts'.lfi →
      Shield.detectMaliciousRequest req opts xp sp lp =
        Shield.detectMaliciousRequest req opts' xp sp lp) ∧
    (∀ t ∈ (Shield.detectMaliciousRequest req opts xp sp lp).2,
      t ∈ (["XSS", "SQL Injection", "LFI"] : List String)) := by
  constructor
  · intro h1 h2 h3
    simp only [Shield.detectMaliciousRequest, h1, h2, h3]
  · intro t ht
    simp only [Shield.detectMaliciousRequest, List.mem_append] at ht
    rcases ht with (h | h) | h <;> (split at h <;> simp_all)

/-- C10 witness: with a request matching the XSS pattern set, flipping
`csrf`, `rfi` and `shellInjection` leaves the result `(true, ["XSS"])`
unchanged, and the reported type is among the three names. -/
theorem C10_detector_witness :
    Shield.detectMaliciousRequest [some "x"]
        ⟨5, true, true, true, true, true, true⟩
        [fun s => decide (s = "x")] [] [] =
      Shield.detectMaliciousRequest [some "x"]
        ⟨5, false, true, true, true, false, false⟩
        [fun s => decide (s = "x")] [] [] ∧
    "XSS" ∈ (["XSS", "SQL Injection", "LFI"] : List String) := by
  constructor
  · exact (C10_detector_depends_only_on_enabled_flags [some "x"]
      ⟨5, true, true, true, true, true, true⟩
      ⟨5, false, true, true, true, false, false⟩
      [fun s => decide (s = "x")] [] []).1 rfl rfl rfl
  · exact (C10_detector_depends_only_on_enabled_flags [some "x"]
      ⟨5, true, true, true, true, true, true⟩
      ⟨5, false, true, true, true, false, false⟩
      [fun s => decide (s = "x")] [] []).2 "XSS"
      (by simp [Shield.detectMaliciousRequest, Shield.isAttackDetected])

end ZZZSecure
